import Mathlib

/-!
# gadgetcli: the flashing pipeline (`gadgetcli/flash.go`)

A shallow embedding of `GadgetFlashFile` and `GadgetFlash`.

* Go strings are Lean `String`s, a Go `error` value is its message text and
  a result of type `error` is an `Option GoError` (`none` is `nil`).
* Everything outside the program (the local disk, the ssh client, the
  `libgadget` helpers, `crypto/sha256`) is an explicit environment `Env`
  that fixes the outcome of every external call.  Every external call is
  assumed to return.
* The functions return, next to their Go result, the list of the external
  calls and log lines they performed, in program order (`Ev`).
-/

namespace Gadget

/-! ## Basic types -/

/-- The text of a Go `error` value. -/
abbrev GoError := String

/-- One byte. -/
abbrev Byte := Fin 256

/-- Severity of a logrus call. -/
inductive Level where
  | debug | info | warn | error
  deriving DecidableEq, Repr

/-- Externally visible actions of the program, recorded in program order. -/
inductive Ev where
  | log (lvl : Level) (msg : String)
  | ensureKeys
  | login
  | pathExists (path : String)
  | openFile (path : String)
  | closeFile (path : String)
  | newSession
  | clientClose
  | stat (path : String)
  | hashRead (path : String)
  | stdinPipe
  | spawnFileCopy
  | spawnStdinCopy
  | start (cmd : String)
  | wait
  | sessionClose
  | runRemote (cmd : String)
  deriving DecidableEq, Repr

/-- What a Go function of result type `error` did: returned `nil`, returned
an error, or hit a run-time panic. -/
inductive Ret where
  | nil
  | error (e : GoError)
  | panicked (msg : String)
  deriving DecidableEq, Repr

/-! ## `fmt.Sprintf`, for the verbs used in `flash.go` -/

/-- An operand of `Sprintf`. -/
inductive Arg where
  | str (s : String)
  | int (n : Int)
  | bytes (b : List Byte)
  deriving DecidableEq, Repr

/-- The digit loop of `strconv` (`formatBits`, base 10): digits are produced
least significant first and stored right to left.  `fuel` bounds the loop;
`u + 1` rounds are always enough. -/
def formatBits : Nat → Nat → List Char → List Char
  | 0, _, acc => acc
  | fuel + 1, u, acc =>
    if 10 ≤ u then formatBits fuel (u / 10) (Nat.digitChar (u % 10) :: acc)
    else Nat.digitChar u :: acc

/-- Decimal text of a natural number. -/
def formatUint (u : Nat) : List Char := formatBits (u + 1) u []

/-- The verb `%d` on an `int`. -/
def fmtD (n : Int) : List Char :=
  if n < 0 then '-' :: formatUint n.natAbs else formatUint n.toNat

/-- The verb `%x` on one byte: high nibble, then low nibble, digits
`0123456789abcdef`. -/
def hexByte (b : Byte) : List Char :=
  [Nat.digitChar (b.val / 16), Nat.digitChar (b.val % 16)]

/-- The verb `%x` on a byte slice. -/
def fmtX : List Byte → List Char
  | [] => []
  | b :: bs => hexByte b ++ fmtX bs

/-- One verb applied to one operand.  Only the combinations that occur in
`flash.go` are modelled; any other one yields a `%!verb` marker. -/
def fmtArg (verb : Char) (a : Arg) : List Char :=
  match a with
  | .str s => if verb = 's' ∨ verb = 'v' then s.data else ['%', '!', verb]
  | .int n => if verb = 'd' ∨ verb = 'v' then fmtD n else ['%', '!', verb]
  | .bytes b => if verb = 'x' then fmtX b else ['%', '!', verb]

/-- The scanning loop of `Sprintf`: `pending` is set right after a `%`. -/
def sprintfAux : List Char → Bool → List Arg → List Char
  | [], pending, _ => if pending then ['%', '!'] else []
  | c :: rest, true, a :: args => fmtArg c a ++ sprintfAux rest false args
  | c :: rest, true, [] => ['%', '!', c] ++ sprintfAux rest false []
  | c :: rest, false, args =>
    if c = '%' then sprintfAux rest true args else c :: sprintfAux rest false args

/-- Model of `fmt.Sprintf`. -/
def Sprintf (format : String) (args : List Arg) : String :=
  String.mk (sprintfAux format.data false args)

/-! ## The catalog -/

/-- `type ArtifactDef struct`. -/
structure ArtifactDef where
  Board : String
  Artifacts : List String
  ArtifactType : List String
  deriving DecidableEq, Repr

/-- `var ArtDefs`. -/
def ArtDefs : List ArtifactDef :=
  [ { Board := "chippro",
      Artifacts := ["zImage", "ntc-gr8-crumb.dtb", "rootfs.ubifs"],
      ArtifactType := ["kernel", "fdt", "rootfs"] } ]

/-! ## The environment -/

/-- The fields of `libgadget.GadgetContext` that `flash.go` reads:
`g.Config.Rootfs.From`, `g.Config.Rootfs.Hash`, `g.WorkingDirectory`,
`g.Verbose`. -/
structure GadgetContext where
  From : String
  Hash : String
  WorkingDirectory : String
  Verbose : Bool
  deriving DecidableEq, Repr

/-- Outcomes of the external calls made by one invocation of
`GadgetFlashFile`. -/
structure TransferEnv where
  /-- First `os.Open(artifactLocation)`. -/
  open1 : Option GoError
  /-- Outcome of `client.NewSession()`. -/
  newSession : Option GoError
  /-- Outcome of `checkFile.Stat()`: the size `fi.Size()` or an error. -/
  stat : Except GoError Int
  /-- Outcome of `io.Copy(checksum, checkFile)`: the bytes hashed or an error. -/
  hashRead : Except GoError (List Byte)
  /-- Outcome of `session.StdinPipe()`. -/
  stdinPipe : Option GoError
  /-- Second `os.Open(artifactLocation)`. -/
  open2 : Option GoError
  /-- Outcome of `io.Copy(pw, artFile)` in the first copy task. -/
  fileCopy : Option GoError
  /-- Outcome of `io.Copy(stdin, reader)` in the second copy task. -/
  stdinCopy : Option GoError
  /-- Outcome of `session.Start(sessionCmd)`. -/
  start : Option GoError
  /-- Outcome of `session.Wait()`: `nil` on exit status 0, an error otherwise. -/
  wait : Option GoError

/-- Outcomes of all external calls of one run of `GadgetFlash`. -/
structure Env where
  /-- Outcome of `libgadget.EnsureKeys()`. -/
  ensureKeys : Option GoError
  /-- Outcome of `libgadget.GadgetLogin(...)`. -/
  login : Option GoError
  /-- Outcome of `libgadget.PathExists(path)`. -/
  pathExists : String → Bool × Option GoError
  /-- Outcomes for the `i`-th call of `GadgetFlashFile`, made on `path`. -/
  transfer : Nat → String → TransferEnv
  /-- The digest function of `crypto/sha256`. -/
  sha256 : List Byte → List Byte
  /-- Outcome of `libgadget.RunRemoteCommand(client, cmd)`:
  `(stdout, stderr, err)`. -/
  runRemote : String → String × String × Option GoError

/-! ## `GadgetFlashFile` -/

/-- The command line built at `flash.go:144`. -/
def sessionCmd (artifactType : String) (size : Int) (sum : List Byte) : String :=
  Sprintf "update_volume %s %d %x" [.str artifactType, .int size, .bytes sum]

/-- `func GadgetFlashFile`.  The two copy tasks run concurrently with the
rest of the function; their only effect on it is a log line, recorded here
where the task is launched.  The deferred `Close` calls are recorded at
each return. -/
def GadgetFlashFile (te : TransferEnv) (sha256 : List Byte → List Byte)
    (artifactLocation artifactType : String) (_g : GadgetContext) :
    List Ev × Option GoError :=
  let t0 := [Ev.log .info (Sprintf "    Transferring '%s': %s"
              [.str artifactType, .str artifactLocation]),
             Ev.openFile artifactLocation]
  match te.open1 with
  | some err =>
    (t0 ++ [Ev.log .error (Sprintf "Failed to open file %s" [.str artifactLocation])],
     some err)
  | none =>
  let t1 := t0 ++ [Ev.newSession]
  match te.newSession with
  | some err => (t1 ++ [Ev.clientClose, Ev.closeFile artifactLocation], some err)
  | none =>
  let t2 := t1 ++ [Ev.stat artifactLocation]
  match te.stat with
  | .error err =>
    (t2 ++ [Ev.log .error "Failed to stat file", Ev.closeFile artifactLocation], some err)
  | .ok fsize =>
  -- `size := int(fi.Size())`, with `int` 64 bits wide as `fi.Size()` is
  let size : Int := fsize
  let t3 := t2 ++ [Ev.hashRead artifactLocation]
  match te.hashRead with
  | .error err =>
    (t3 ++ [Ev.log .error "Failed to get checksum", Ev.closeFile artifactLocation], some err)
  | .ok content =>
  let sum := sha256 content
  let t4 := t3 ++ [Ev.log .debug (Sprintf "checksum: %x" [.bytes sum]), Ev.stdinPipe]
  match te.stdinPipe with
  | some err =>
    (t4 ++ [Ev.closeFile artifactLocation],
     some (Sprintf "Unable to setup stdin for session: %v" [.str err]))
  | none =>
  let t5 := t4 ++ [Ev.openFile artifactLocation]
  match te.open2 with
  | some err =>
    (t5 ++ [Ev.log .error (Sprintf "Failed to open file %s" [.str artifactLocation]),
            Ev.closeFile artifactLocation], some err)
  | none =>
  let t6 := t5
    ++ [Ev.spawnFileCopy]
    ++ (match te.fileCopy with
        | some _ => [Ev.log .error "Failed to copy file to writer"]
        | none => [])
    ++ [Ev.spawnStdinCopy]
    ++ (match te.stdinCopy with
        | some _ => [Ev.log .error "Failed to copy reader to stdin"]
        | none => [])
    ++ [Ev.log .debug "  Starting session"]
  let cmd := sessionCmd artifactType size sum
  let t7 := t6 ++ [Ev.log .debug (Sprintf "sessionCmd: %s" [.str cmd]), Ev.start cmd]
  match te.start with
  | some err =>
    (t7 ++ [Ev.closeFile artifactLocation, Ev.closeFile artifactLocation], some err)
  | none =>
  (t7 ++ [Ev.wait, Ev.sessionClose,
          Ev.closeFile artifactLocation, Ev.closeFile artifactLocation], none)

/-! ## `GadgetFlash` -/

/-- The loop at `flash.go:189`: the first entry whose `Board` equals `board`,
or the initial `ArtifactDef{Board: ""}`. -/
def findBoard (board : String) : List ArtifactDef → List Ev × ArtifactDef
  | [] => ([], { Board := "", Artifacts := [], ArtifactType := [] })
  | d :: rest =>
    if board = d.Board then
      ([Ev.log .info (Sprintf "  Flashing: %s" [.str board])], d)
    else findBoard board rest

/-- Lines 174-200 of `GadgetFlash`: the board check. -/
def resolveBoard (defs : List ArtifactDef) (board image : String) :
    List Ev × Except GoError ArtifactDef :=
  if board = "" ∧ image = "" then
    ([Ev.log .error "Failed to find rootfs",
      Ev.log .error "One or more [mis/un]configured entries:",
      Ev.log .error (Sprintf "From: %s" [.str board]),
      Ev.log .error (Sprintf "Hash: %s" [.str image])],
     .error "Failed to flash rootfs")
  else
    let (t, matchedBoard) := findBoard board defs
    if matchedBoard.Board = "" then
      (t ++ [Ev.log .error (Sprintf "%s is not a valid From:" [.str board])],
       .error "Invalid board definition")
    else (t, .ok matchedBoard)

/-- The loop at `flash.go:203`: `none` when every part passed the check,
`some err` when the function returns `err` from inside the loop. -/
def checkParts (env : Env) (workingDirectory : String) :
    List String → List Ev × Option GoError
  | [] => ([], none)
  | payloadPart :: rest =>
    let partLocation := workingDirectory ++ "/.images/" ++ payloadPart
    let (partExists, err) := env.pathExists partLocation
    if !partExists then
      ([Ev.pathExists partLocation,
        Ev.log .error (Sprintf "Could not locate '%s'" [.str partLocation])],
       some "Failed to locate linux config")
    else
      match err with
      | some e =>
        ([Ev.pathExists partLocation,
          Ev.log .error (Sprintf "Failed to determine if '%s' exists" [.str partLocation])],
         some e)
      | none =>
        let (t, r) := checkParts env workingDirectory rest
        (Ev.pathExists partLocation :: t, r)

/-- The loop at `flash.go:217`, from index `i` on.  `Ret.nil` means the loop
ran to its end. -/
def flashParts (env : Env) (g : GadgetContext) (artifactType : List String) :
    Nat → List String → List Ev × Ret
  | _, [] => ([], .nil)
  | i, flashPart :: rest =>
    let partLocation := g.WorkingDirectory ++ "/.images/" ++ flashPart
    match artifactType[i]? with
    | none => ([], .panicked "index out of range")
    | some partType =>
      let (t, err) :=
        GadgetFlashFile (env.transfer i partLocation) env.sha256 partLocation partType g
      match err with
      | some e => (t, .error e)
      | none =>
        let (t', r) := flashParts env g artifactType (i + 1) rest
        (t ++ t', r)

/-- Lines 228-266 of `GadgetFlash`: the three commands after the transfers. -/
def postTransfer (env : Env) : List Ev × Ret :=
  let (stdout, stderr, err) := env.runRemote "toggle_active_slot"
  let t1 := [Ev.runRemote "toggle_active_slot"]
  match err with
  | some e =>
    (t1 ++ [Ev.log .error (Sprintf "\n%s" [.str stdout]),
            Ev.log .error (Sprintf "\n%s" [.str stderr])], .error e)
  | none =>
  let t2 := t1 ++ [Ev.log .info (Sprintf "\n%s" [.str stdout]),
                   Ev.log .debug (Sprintf "\n%s" [.str stderr]),
                   Ev.log .info "Syncing changes..", Ev.runRemote "sync"]
  let (stdout, stderr, err) := env.runRemote "sync"
  match err with
  | some e =>
    (t2 ++ [Ev.log .error (Sprintf "\n%s" [.str stdout]),
            Ev.log .error (Sprintf "\n%s" [.str stderr])], .error e)
  | none =>
  let t3 := t2 ++ [Ev.log .debug (Sprintf "\n%s" [.str stdout]),
                   Ev.log .debug (Sprintf "\n%s" [.str stderr]),
                   Ev.log .info "Rebooting..", Ev.runRemote "reboot"]
  let (stdout, stderr, err) := env.runRemote "reboot"
  match err with
  | some e =>
    (t3 ++ [Ev.log .error (Sprintf "\n%s" [.str stdout]),
            Ev.log .error (Sprintf "\n%s" [.str stderr])], .error e)
  | none =>
  (t3 ++ [Ev.log .debug (Sprintf "\n%s" [.str stdout]),
          Ev.log .debug (Sprintf "\n%s" [.str stderr])], .nil)

/-- `func GadgetFlash`, over a catalog `defs`. -/
def GadgetFlashIn (defs : List ArtifactDef) (env : Env) (g : GadgetContext) :
    List Ev × Ret :=
  let t0 := [Ev.ensureKeys]
  match env.ensureKeys with
  | some err => (t0 ++ [Ev.log .error "Failed to connect to Gadget"], .error err)
  | none =>
  let t1 := t0 ++ [Ev.login]
  match env.login with
  | some err => (t1 ++ [Ev.log .error "Failed to connect to Gadget"], .error err)
  | none =>
  let board := g.From
  let image := g.Hash
  match resolveBoard defs board image with
  | (tb, .error e) => (t1 ++ tb, .error e)
  | (tb, .ok matchedBoard) =>
  let t2 := t1 ++ tb
  match checkParts env g.WorkingDirectory matchedBoard.Artifacts with
  | (tc, some e) => (t2 ++ tc, .error e)
  | (tc, none) =>
  let t3 := t2 ++ tc
  match flashParts env g matchedBoard.ArtifactType 0 matchedBoard.Artifacts with
  | (tf, .error e) => (t3 ++ tf, .error e)
  | (tf, .panicked m) => (t3 ++ tf, .panicked m)
  | (tf, .nil) =>
  let (tp, r) := postTransfer env
  (t3 ++ tf ++ tp, r)

/-- `func GadgetFlash` with the shipped catalog `ArtDefs`. -/
def GadgetFlash (env : Env) (g : GadgetContext) : List Ev × Ret :=
  GadgetFlashIn ArtDefs env g

/-! ## Observations on a run -/

/-- The remote command line an action issues, if it issues one: the command
started on a transfer session, or the command given to `RunRemoteCommand`. -/
def Ev.command? : Ev → Option String
  | .start cmd => some cmd
  | .runRemote cmd => some cmd
  | _ => none

/-- The remote command lines issued in a run, in order. -/
def remoteCommands (t : List Ev) : List String := t.filterMap Ev.command?

/-- The message of an action that logs at error level. -/
def Ev.errorLog? : Ev → Option String
  | .log .error msg => some msg
  | _ => none

/-- The messages logged at error level in a run, in order. -/
def errorLogs (t : List Ev) : List String := t.filterMap Ev.errorLog?

/-- Whether an action is a log line.  The other actions are the calls into
the file system, the ssh client and `libgadget`. -/
def Ev.isLog : Ev → Bool
  | .log _ _ => true
  | _ => false

/-! ## Reading decimal and hexadecimal text back -/

/-- Value of a decimal digit character. -/
def digitValue (c : Char) : Nat := c.toNat - 48

/-- Value of a string of decimal digits, most significant first. -/
def decimalValue (cs : List Char) : Nat := cs.foldl (fun a c => 10 * a + digitValue c) 0

/-- Value of a lowercase hexadecimal digit character. -/
def hexValue (c : Char) : Nat := if c.toNat < 58 then c.toNat - 48 else c.toNat - 87

/-- The sixteen lowercase hexadecimal digits. -/
def hexDigits : List Char := "0123456789abcdef".data

/-- The path of an artifact: `g.WorkingDirectory + "/.images/" + name`. -/
def partLocation (workingDirectory name : String) : String :=
  workingDirectory ++ "/.images/" ++ name

/-- Every call of a transfer up to and including `session.Start` succeeds;
the file has size `size` and the hashing pass reads `content`. -/
def TransferEnv.succeeds (te : TransferEnv) (size : Int) (content : List Byte) : Prop :=
  te.open1 = none ∧ te.newSession = none ∧ te.stat = .ok size ∧
  te.hashRead = .ok content ∧ te.stdinPipe = none ∧ te.open2 = none ∧ te.start = none

/-- A call that `GadgetFlashFile` checks fails: an open, the session open,
`Stat`, the read of the hashing pass, `StdinPipe` or `session.Start`. -/
def TransferEnv.checkedFailure (te : TransferEnv) : Bool :=
  te.open1.isSome || te.newSession.isSome || !te.stat.toBool || !te.hashRead.toBool ||
  te.stdinPipe.isSome || te.open2.isSome || te.start.isSome

/-! ## The copy tasks of `GadgetFlashFile` and the main thread

`GadgetFlashFile` launches two tasks (`go func`, lines 121 and 128) and then
goes on to `session.Start` (line 147) without waiting for them.  A schedule
is a list of moves; each move lets one of the three threads take one step.
The writer returned by `session.StdinPipe()` writes to the channel of the
session, which is open since `client.NewSession()`: a `Write` on it does not
wait for `session.Start`.  `pw` is never closed, so the second task never
sees the end of the data and never reaches `stdin.Close()`. -/

/-- Where the main thread stands, from line 121 on. -/
inductive Pc where
  /-- About to run `go func() { io.Copy(pw, artFile) }()`, line 121. -/
  | launchFileCopy
  /-- About to run `go func() { io.Copy(stdin, reader); stdin.Close() }()`, line 128. -/
  | launchStdinCopy
  /-- About to run `session.Start(sessionCmd)`, line 147. -/
  | startCmd
  /-- About to run `session.Wait()`, line 151. -/
  | waitCmd
  /-- About to run `session.Close()`, line 154. -/
  | closeSession
  /-- The function has returned. -/
  | returned
  deriving DecidableEq, Repr

/-- What reaches the session, in order of arrival. -/
inductive Wire where
  /-- A successful `session.Start`: the command is started. -/
  | started
  /-- One `Write` of payload bytes on the session's stdin. -/
  | payload (bytes : List Byte)
  deriving DecidableEq, Repr

/-- State of one transfer from line 121 on. -/
structure Transfer where
  pc : Pc
  /-- Whether `session.Start` is going to fail. -/
  startFails : Bool
  /-- The first task (file to pipe) has been launched. -/
  fileTask : Bool
  /-- The second task (pipe to stdin) has been launched. -/
  stdinTask : Bool
  /-- The session has been closed. -/
  closed : Bool
  /-- Bytes of `artFile` not read yet. -/
  file : List Byte
  /-- Bytes handed to `pw.Write` and not yet taken by a `Read` on `pr`; the
  pipe of `io.Pipe` holds one pending write at most. -/
  pipe : List Byte
  /-- Bytes the second task has read and not yet written to stdin. -/
  buf : List Byte
  /-- What has reached the session so far. -/
  wire : List Wire
  deriving DecidableEq, Repr

/-- One scheduling decision. -/
inductive Move where
  /-- The main thread runs its next statement. -/
  | main
  /-- The first task reads up to `n` bytes of the file and hands them to the pipe. -/
  | fileRead (n : Nat)
  /-- The second task reads up to `n` bytes from the pipe. -/
  | pipeRead (n : Nat)
  /-- The second task writes what it has read to the session's stdin. -/
  | stdinWrite
  deriving DecidableEq, Repr

/-- The effect of one move; a move that is not possible in a state leaves it
unchanged. -/
def Transfer.step (s : Transfer) : Move → Transfer
  | .main =>
    match s.pc with
    | .launchFileCopy => { s with pc := .launchStdinCopy, fileTask := true }
    | .launchStdinCopy => { s with pc := .startCmd, stdinTask := true }
    | .startCmd =>
      if s.startFails then { s with pc := .returned }
      else { s with pc := .waitCmd, wire := s.wire ++ [.started] }
    | .waitCmd => { s with pc := .closeSession }
    | .closeSession => { s with pc := .returned, closed := true }
    | .returned => s
  | .fileRead n =>
    if s.fileTask ∧ s.pipe = [] ∧ 0 < n then
      { s with pipe := s.file.take n, file := s.file.drop n }
    else s
  | .pipeRead n =>
    if s.stdinTask ∧ s.buf = [] ∧ 0 < n then
      { s with buf := s.pipe.take n, pipe := s.pipe.drop n }
    else s
  | .stdinWrite =>
    if s.stdinTask ∧ s.buf ≠ [] ∧ ¬ s.closed then
      { s with wire := s.wire ++ [.payload s.buf], buf := [] }
    else s

/-- The state reached under a schedule. -/
def Transfer.run (s : Transfer) : List Move → Transfer
  | [] => s
  | m :: ms => (s.step m).run ms

/-- The state at line 121 for an artifact file holding `content`. -/
def Transfer.init (content : List Byte) (startFails : Bool) : Transfer :=
  { pc := .launchFileCopy, startFails := startFails, fileTask := false, stdinTask := false,
    closed := false, file := content, pipe := [], buf := [], wire := [] }

/-- The payload bytes that have reached the session, in order of arrival. -/
def written : List Wire → List Byte
  | [] => []
  | .started :: w => written w
  | .payload b :: w => b ++ written w

/-- No payload write comes before the start of the command: the first thing
to reach the session, if anything does, is the start. -/
def startPrecedesPayload : List Wire → Bool
  | [] => true
  | .started :: _ => true
  | .payload _ :: _ => false

/-- What a schedule preserves: no byte is lost or reordered on the way from
the file to the session, the tasks are launched one after the other, and the
command is started only after both launches. -/
def Transfer.Inv (content : List Byte) (s : Transfer) : Prop :=
  written s.wire ++ s.buf ++ s.pipe ++ s.file = content ∧
  (s.pc ≠ .launchFileCopy → s.fileTask = true) ∧
  (s.pc ≠ .launchFileCopy → s.pc ≠ .launchStdinCopy → s.stdinTask = true) ∧
  (Wire.started ∈ s.wire →
    s.pc ≠ .launchFileCopy ∧ s.pc ≠ .launchStdinCopy ∧ s.pc ≠ .startCmd)

/-! ## Concrete runs -/

/-- A transfer in which every call succeeds, on a file of five bytes. -/
def teOk : TransferEnv :=
  { open1 := none, newSession := none, stat := .ok 5, hashRead := .ok [1, 2, 3, 4, 5],
    stdinPipe := none, open2 := none, fileCopy := none, stdinCopy := none,
    start := none, wait := none }

/-- A stand-in digest function for concrete runs: 32 bytes `0xab`. -/
def shaStub (_ : List Byte) : List Byte := List.replicate 32 171

/-- An environment in which every call succeeds. -/
def envOk : Env :=
  { ensureKeys := none, login := none, pathExists := fun _ => (true, none),
    transfer := fun _ _ => teOk, sha256 := shaStub,
    runRemote := fun _ => ("", "", none) }

/-- Board `chippro`, working directory `/w`. -/
def gChippro : GadgetContext :=
  { From := "chippro", Hash := "", WorkingDirectory := "/w", Verbose := false }

/-- Board `chip`, which the shipped catalog does not hold. -/
def gChip : GadgetContext :=
  { From := "chip", Hash := "", WorkingDirectory := "/w", Verbose := false }

/-- As `envOk`, but the remote command of the second artifact exits with
status 1. -/
def envExit : Env :=
  { envOk with
    transfer := fun i _ =>
      if i = 1 then { teOk with wait := some "Process exited with status 1" } else teOk }

/-- As `envOk`, but reading the first artifact fails in the streaming pass;
`w` is the outcome of `session.Wait()` for that artifact. -/
def envStreamFail (w : Option GoError) : Env :=
  { envOk with
    transfer := fun i _ =>
      if i = 0 then
        { teOk with fileCopy := some "read /w/.images/zImage: input/output error", wait := w }
      else teOk }

/-- As `teOk`, but `session.Start` fails. -/
def teStartFail : TransferEnv :=
  { teOk with start := some "ssh: command update_volume failed" }

/-- As `envOk`, but `rootfs.ubifs` is missing. -/
def envMissing : Env :=
  { envOk with
    pathExists := fun p => if p = "/w/.images/rootfs.ubifs" then (false, none) else (true, none) }

/-- As `envOk`, but the login to the device fails. -/
def envLoginFail : Env :=
  { envOk with login := some "ssh: handshake failed" }

/-- As `envOk`, but `sync` exits with status 1. -/
def envSyncFail : Env :=
  { envOk with
    runRemote := fun cmd =>
      if cmd = "sync" then ("flushing", "device busy", some "Process exited with status 1")
      else ("", "", none) }

/-! ## Lemmas on decimal and hexadecimal text -/

theorem digitValue_digitChar (k : Nat) (h : k < 10) : digitValue (Nat.digitChar k) = k := by
  interval_cases k <;> rfl

theorem isDigit_digitChar (k : Nat) (h : k < 10) : (Nat.digitChar k).isDigit = true := by
  interval_cases k <;> rfl

theorem hexValue_digitChar (k : Nat) (h : k < 16) : hexValue (Nat.digitChar k) = k := by
  interval_cases k <;> rfl

theorem digitChar_mem_hexDigits (k : Nat) (h : k < 16) : Nat.digitChar k ∈ hexDigits := by
  interval_cases k <;> decide

theorem formatBits_append (fuel : Nat) : ∀ (u : Nat) (acc : List Char),
    formatBits fuel u acc = formatBits fuel u [] ++ acc := by
  induction fuel with
  | zero => intro u acc; simp [formatBits]
  | succ f ih =>
    intro u acc
    unfold formatBits
    split
    · rw [ih (u / 10) (_ :: acc), ih (u / 10) [_]]; simp
    · simp

theorem formatBits_step (fuel u : Nat) (h : 10 ≤ u) :
    formatBits (fuel + 1) u [] = formatBits fuel (u / 10) [] ++ [Nat.digitChar (u % 10)] := by
  rw [formatBits, if_pos h, formatBits_append]

theorem formatBits_small (fuel u : Nat) (h : u < 10) :
    formatBits (fuel + 1) u [] = [Nat.digitChar u] := by
  rw [formatBits, if_neg (by omega)]

theorem decimalValue_formatBits (fuel : Nat) : ∀ u, u < fuel →
    decimalValue (formatBits fuel u []) = u := by
  induction fuel with
  | zero => intro u h; omega
  | succ f ih =>
    intro u h
    by_cases hu : 10 ≤ u
    · have h1 : u / 10 < f := by omega
      rw [formatBits_step f u hu]
      have := ih (u / 10) h1
      simp only [decimalValue, List.foldl_append, List.foldl_cons, List.foldl_nil] at this ⊢
      rw [this, digitValue_digitChar _ (Nat.mod_lt _ (by decide))]
      omega
    · rw [formatBits_small f u (by omega)]
      simp [decimalValue, digitValue_digitChar u (by omega)]

theorem isDigit_formatBits (fuel : Nat) : ∀ u, u < fuel →
    ∀ c ∈ formatBits fuel u [], c.isDigit = true := by
  induction fuel with
  | zero => intro u h; omega
  | succ f ih =>
    intro u h c hc
    by_cases hu : 10 ≤ u
    · rw [formatBits_step f u hu] at hc
      rcases List.mem_append.1 hc with hc | hc
      · exact ih (u / 10) (by omega) c hc
      · rw [List.mem_singleton.1 hc]
        exact isDigit_digitChar _ (Nat.mod_lt _ (by decide))
    · rw [formatBits_small f u (by omega)] at hc
      rw [List.mem_singleton.1 hc]
      exact isDigit_digitChar _ (by omega)

theorem head_formatBits (fuel : Nat) : ∀ u, u < fuel → 0 < u →
    ∃ c rest, formatBits fuel u [] = c :: rest ∧ c ≠ '0' := by
  induction fuel with
  | zero => intro u h; omega
  | succ f ih =>
    intro u h hpos
    by_cases hu : 10 ≤ u
    · obtain ⟨c, rest, hcr, hc⟩ := ih (u / 10) (by omega) (by omega)
      exact ⟨c, rest ++ [Nat.digitChar (u % 10)], by rw [formatBits_step f u hu, hcr]; simp, hc⟩
    · refine ⟨Nat.digitChar u, [], formatBits_small f u (by omega), ?_⟩
      have h10 : u < 10 := by omega
      interval_cases u <;> decide

theorem decimalValue_formatUint (n : Nat) : decimalValue (formatUint n) = n :=
  decimalValue_formatBits (n + 1) n (Nat.lt_succ_self n)

theorem formatUint_injective {n m : Nat} (h : formatUint n = formatUint m) : n = m := by
  rw [← decimalValue_formatUint n, ← decimalValue_formatUint m, h]

theorem space_not_mem_formatUint (n : Nat) : ' ' ∉ formatUint n := by
  intro h
  have := isDigit_formatBits (n + 1) n (Nat.lt_succ_self n) ' ' h
  exact absurd this (by decide)

theorem length_fmtX (d : List Byte) : (fmtX d).length = 2 * d.length := by
  induction d with
  | nil => rfl
  | cons b bs ih => simp [fmtX, hexByte, ih]; omega

theorem mem_fmtX (d : List Byte) : ∀ c ∈ fmtX d, c ∈ hexDigits := by
  induction d with
  | nil => intro c hc; simp [fmtX] at hc
  | cons b bs ih =>
    intro c hc
    simp only [fmtX, hexByte, List.cons_append, List.nil_append, List.mem_cons] at hc
    rcases hc with hc | hc | hc
    · rw [hc]; exact digitChar_mem_hexDigits _ (by omega)
    · rw [hc]; exact digitChar_mem_hexDigits _ (Nat.mod_lt _ (by decide))
    · exact ih c hc

theorem space_not_mem_fmtX (d : List Byte) : ' ' ∉ fmtX d := by
  intro h
  exact absurd (mem_fmtX d ' ' h) (by decide)

theorem fmtX_injective : ∀ {d e : List Byte}, fmtX d = fmtX e → d = e := by
  intro d
  induction d with
  | nil =>
    intro e h
    cases e with
    | nil => rfl
    | cons b bs => simp [fmtX, hexByte] at h
  | cons a as ih =>
    intro e h
    cases e with
    | nil => simp [fmtX, hexByte] at h
    | cons b bs =>
      simp only [fmtX, hexByte, List.cons_append, List.nil_append, List.cons.injEq] at h
      obtain ⟨h1, h2, h3⟩ := h
      have e1 := congrArg hexValue h1
      have e2 := congrArg hexValue h2
      rw [hexValue_digitChar _ (by omega), hexValue_digitChar _ (by omega)] at e1
      rw [hexValue_digitChar _ (Nat.mod_lt _ (by decide)),
        hexValue_digitChar _ (Nat.mod_lt _ (by decide))] at e2
      have hab : a = b := Fin.ext (by omega)
      rw [hab, ih h3]

theorem getElem?_fmtX (d : List Byte) : ∀ (i : Nat) (b : Byte), d[i]? = some b →
    (fmtX d)[2 * i]? = some (Nat.digitChar (b.val / 16)) ∧
    (fmtX d)[2 * i + 1]? = some (Nat.digitChar (b.val % 16)) := by
  induction d with
  | nil => intro i b h; simp at h
  | cons a as ih =>
    intro i b h
    cases i with
    | zero =>
      simp only [List.getElem?_cons_zero, Option.some.injEq] at h
      subst h
      simp [fmtX, hexByte]
    | succ j =>
      simp only [List.getElem?_cons_succ] at h
      have := ih j b h
      have e1 : 2 * (j + 1) = (2 * j) + 1 + 1 := by ring
      have e2 : 2 * (j + 1) + 1 = (2 * j + 1) + 1 + 1 := by ring
      rw [e2, e1]
      simpa [fmtX, hexByte] using this

/-- The data of the command line as the four fields joined by single spaces. -/
theorem sessionCmd_data (t : String) (n : Nat) (d : List Byte) :
    (sessionCmd t (n : Int) d).data =
      [' '].intercalate ["update_volume".data, t.data, formatUint n, fmtX d] := by
  have hn : ¬ ((n : Int) < 0) := by omega
  simp [sessionCmd, Sprintf, sprintfAux, fmtArg, fmtD, hn, List.intercalate]

theorem Sprintf_newline (s : String) : Sprintf "\n%s" [.str s] = "\n" ++ s := by
  cases s
  simp [Sprintf, sprintfAux, fmtArg]
  rfl

theorem Sprintf_could_not_locate (s : String) :
    Sprintf "Could not locate '%s'" [.str s] = "Could not locate '" ++ s ++ "'" := by
  cases s
  simp [Sprintf, sprintfAux, fmtArg]
  rfl

/-! ## The command line of a transfer -/

/-- C4: for an artifact type, a size `n ≥ 0` and a 32-byte digest `d` the
command line is `update_volume`, the type, the decimal text of `n` and the
hexadecimal text of `d`, joined by single spaces.  The decimal text consists
of digits only, has no leading zero unless `n = 0` and reads back as `n`; the
hexadecimal text has 64 characters out of `0123456789abcdef`, two per byte,
high nibble first.  When the type holds no space, splitting the line at the
spaces gives exactly these four fields, and the line determines type, size
and digest. -/
theorem sessionCmd_format (artifactType : String) (n : Nat) (d : List Byte)
    (hd : d.length = 32) :
    sessionCmd artifactType (n : Int) d
      = "update_volume " ++ artifactType ++ " " ++ String.mk (formatUint n) ++ " "
          ++ String.mk (fmtX d) ∧
    ((∀ c ∈ formatUint n, c.isDigit = true) ∧
      ((formatUint n).head? = some '0' → n = 0) ∧
      decimalValue (formatUint n) = n) ∧
    ((fmtX d).length = 64 ∧ (∀ c ∈ fmtX d, c ∈ hexDigits) ∧
      ∀ i b, d[i]? = some b →
        (fmtX d)[2 * i]? = some (Nat.digitChar (b.val / 16)) ∧
        (fmtX d)[2 * i + 1]? = some (Nat.digitChar (b.val % 16))) ∧
    (' ' ∉ artifactType.data →
      (sessionCmd artifactType (n : Int) d).data.splitOn ' '
        = ["update_volume".data, artifactType.data, formatUint n, fmtX d] ∧
      ∀ (t' : String) (n' : Nat) (d' : List Byte), ' ' ∉ t'.data →
        sessionCmd t' (n' : Int) d' = sessionCmd artifactType (n : Int) d →
        t' = artifactType ∧ n' = n ∧ d' = d) := by
  have hsplit : ∀ (t : String) (m : Nat) (e : List Byte), ' ' ∉ t.data →
      (sessionCmd t (m : Int) e).data.splitOn ' '
        = ["update_volume".data, t.data, formatUint m, fmtX e] := by
    intro t m e ht
    rw [sessionCmd_data]
    apply List.splitOn_intercalate
    · intro l hl
      simp only [List.mem_cons, List.mem_singleton, List.not_mem_nil, or_false] at hl
      rcases hl with hl | hl | hl | hl <;> subst hl
      · decide
      · exact ht
      · exact space_not_mem_formatUint m
      · exact space_not_mem_fmtX e
    · simp
  refine ⟨?_, ⟨?_, ?_, decimalValue_formatUint n⟩, ⟨?_, mem_fmtX d, getElem?_fmtX d⟩, ?_⟩
  · apply String.ext
    rw [sessionCmd_data]
    simp [List.intercalate]
  · exact isDigit_formatBits (n + 1) n (Nat.lt_succ_self n)
  · intro h0
    by_contra hn
    obtain ⟨c, rest, hcr, hc⟩ := head_formatBits (n + 1) n (Nat.lt_succ_self n)
      (Nat.pos_of_ne_zero hn)
    rw [formatUint, hcr] at h0
    simp at h0
    exact hc h0
  · rw [length_fmtX, hd]
  · intro ht
    refine ⟨hsplit artifactType n d ht, ?_⟩
    intro t' n' d' ht' heq
    have h1 := hsplit t' n' d' ht'
    rw [heq, hsplit artifactType n d ht] at h1
    simp only [List.cons.injEq, true_and, and_true] at h1
    obtain ⟨ha, hb, hc⟩ := h1
    exact ⟨(String.ext ha).symm, (formatUint_injective hb).symm, (fmtX_injective hc).symm⟩

theorem sessionCmd_format_witness :
    (List.replicate 32 (171 : Byte)).length = 32 ∧
    sessionCmd "kernel" ((4194304 : Nat) : Int) (List.replicate 32 (171 : Byte))
      = "update_volume kernel 4194304 abababababababababababababababababababababababababababababababab" :=
  ⟨by decide,
   (sessionCmd_format "kernel" 4194304 (List.replicate 32 (171 : Byte)) (by decide)).1.trans
     (by decide)⟩

/-! ## The board check -/

theorem findBoard_logs (board : String) (defs : List ArtifactDef) :
    ∀ ev ∈ (findBoard board defs).1, ev.isLog = true := by
  induction defs with
  | nil => intro ev h; simp [findBoard] at h
  | cons d rest ih =>
    intro ev h
    unfold findBoard at h
    split at h
    · simp at h; subst h; rfl
    · exact ih ev h

theorem findBoard_board (board : String) (defs : List ArtifactDef) :
    ((findBoard board defs).2.Board = "" ∨
      ((findBoard board defs).2 ∈ defs ∧ (findBoard board defs).2.Board = board)) := by
  induction defs with
  | nil => left; rfl
  | cons d rest ih =>
    unfold findBoard
    split
    · rename_i h; right; exact ⟨List.mem_cons_self _ _, h.symm⟩
    · rcases ih with ih | ih
      · left; exact ih
      · right; exact ⟨List.mem_cons_of_mem _ ih.1, ih.2⟩

theorem findBoard_mem (board : String) (defs : List ArtifactDef)
    (h : ∃ d ∈ defs, d.Board = board) : (findBoard board defs).2.Board = board := by
  induction defs with
  | nil => simp at h
  | cons d rest ih =>
    unfold findBoard
    split
    · rename_i hb; exact hb.symm
    · rename_i hb
      apply ih
      obtain ⟨e, he, heb⟩ := h
      rcases List.mem_cons.1 he with he | he
      · subst he; exact absurd heb.symm hb
      · exact ⟨e, he, heb⟩

theorem findBoard_unknown (board : String) (defs : List ArtifactDef)
    (h : ∀ d ∈ defs, d.Board ≠ board) :
    findBoard board defs = ([], { Board := "", Artifacts := [], ArtifactType := [] }) := by
  induction defs with
  | nil => rfl
  | cons d rest ih =>
    unfold findBoard
    rw [if_neg (fun hc => h d (List.mem_cons_self _ _) hc.symm)]
    exact ih (fun e he => h e (List.mem_cons_of_mem _ he))

theorem resolveBoard_logs (defs : List ArtifactDef) (board image : String) :
    ∀ ev ∈ (resolveBoard defs board image).1, ev.isLog = true := by
  intro ev h
  unfold resolveBoard at h
  split at h
  · simp at h
    rcases h with h | h | h | h <;> subst h <;> rfl
  · simp only at h
    split at h
    · rcases List.mem_append.1 h with h | h
      · exact findBoard_logs board defs ev h
      · simp at h; subst h; rfl
    · exact findBoard_logs board defs ev h

theorem resolveBoard_ok_iff (defs : List ArtifactDef) (b h : String) :
    (∃ d, (resolveBoard defs b h).2 = .ok d) ↔ (b ≠ "" ∧ ∃ d ∈ defs, d.Board = b) := by
  constructor
  · rintro ⟨d, hd⟩
    unfold resolveBoard at hd
    split at hd
    · simp at hd
    · simp only at hd
      split at hd
      · simp at hd
      · rename_i hne
        rcases findBoard_board b defs with hb | hb
        · exact absurd hb hne
        · refine ⟨?_, _, hb.1, hb.2⟩
          intro hb0
          rw [hb.2] at hne
          exact hne hb0
  · rintro ⟨hb, hex⟩
    have hfb := findBoard_mem b defs hex
    refine ⟨(findBoard b defs).2, ?_⟩
    unfold resolveBoard
    rw [if_neg (fun hc => hb hc.1)]
    simp only
    rw [if_neg (by rw [hfb]; exact hb)]

theorem resolveBoard_ok_mem (defs : List ArtifactDef) (b h : String) (d : ArtifactDef)
    (hd : (resolveBoard defs b h).2 = .ok d) : d ∈ defs ∧ d.Board = b := by
  unfold resolveBoard at hd
  split at hd
  · simp at hd
  · simp only at hd
    split at hd
    · simp at hd
    · rename_i hne
      simp only [Except.ok.injEq] at hd
      subst hd
      rcases findBoard_board b defs with hb | hb
      · exact absurd hb hne
      · exact hb

/-- C7: the board check of `GadgetFlash` succeeds exactly for the strings that
are the `Board` of a catalog entry, which for the shipped catalog means
exactly for `chippro`; it then yields that entry, whose files and types are
`zImage`/`kernel`, `ntc-gr8-crumb.dtb`/`fdt`, `rootfs.ubifs`/`rootfs`.  Every
other string is an error: `ChipPro`, `chippro` followed by a blank, the empty
board with any image, and board and image both empty.  No entry is used as a
default. -/
theorem resolveBoard_exact (b h : String) :
    ((∃ d, (resolveBoard ArtDefs b h).2 = .ok d) ↔ b = "chippro") ∧
    (∀ d, (resolveBoard ArtDefs b h).2 = .ok d →
      d.Board = b ∧ d ∈ ArtDefs ∧
      List.zip d.Artifacts d.ArtifactType
        = [("zImage", "kernel"), ("ntc-gr8-crumb.dtb", "fdt"), ("rootfs.ubifs", "rootfs")]) ∧
    (b ≠ "chippro" → ∃ e, (resolveBoard ArtDefs b h).2 = .error e) ∧
    (resolveBoard ArtDefs "ChipPro" h).2 = .error "Invalid board definition" ∧
    (resolveBoard ArtDefs "chippro " h).2 = .error "Invalid board definition" ∧
    (h ≠ "" → (resolveBoard ArtDefs "" h).2 = .error "Invalid board definition") ∧
    (resolveBoard ArtDefs "" "").2 = .error "Failed to flash rootfs" ∧
    (∀ defs : List ArtifactDef,
      ((∃ d, (resolveBoard defs b h).2 = .ok d) ↔ (b ≠ "" ∧ ∃ d ∈ defs, d.Board = b)) ∧
      ∀ d, (resolveBoard defs b h).2 = .ok d → d ∈ defs ∧ d.Board = b) := by
  have hiff : (∃ d, (resolveBoard ArtDefs b h).2 = .ok d) ↔ b = "chippro" := by
    rw [resolveBoard_ok_iff]
    constructor
    · rintro ⟨_, d, hd, hb⟩
      simp [ArtDefs] at hd
      rw [← hb, hd]
    · intro hb
      subst hb
      exact ⟨by decide, _, List.mem_cons_self _ _, rfl⟩
  refine ⟨hiff, ?_, ?_, ?_, ?_, ?_, ?_, ?_⟩
  · intro d hd
    obtain ⟨hmem, hb⟩ := resolveBoard_ok_mem ArtDefs b h d hd
    refine ⟨hb, hmem, ?_⟩
    simp [ArtDefs] at hmem
    subst hmem
    rfl
  · intro hb
    cases hr : (resolveBoard ArtDefs b h).2 with
    | error e => exact ⟨e, rfl⟩
    | ok d => exact absurd (hiff.1 ⟨d, hr⟩) hb
  · simp [resolveBoard, findBoard, ArtDefs]
  · simp [resolveBoard, findBoard, ArtDefs]
  · intro hh
    simp [resolveBoard, findBoard, ArtDefs, hh]
  · simp [resolveBoard]
  · intro defs
    exact ⟨resolveBoard_ok_iff defs b h, resolveBoard_ok_mem defs b h⟩

/-! ## Lemmas on runs -/

theorem remoteCommands_append (s t : List Ev) :
    remoteCommands (s ++ t) = remoteCommands s ++ remoteCommands t := by
  simp [remoteCommands]

theorem errorLogs_append (s t : List Ev) :
    errorLogs (s ++ t) = errorLogs s ++ errorLogs t := by
  simp [errorLogs]

theorem remoteCommands_of_logs (t : List Ev) (h : ∀ ev ∈ t, ev.isLog = true) :
    remoteCommands t = [] := by
  induction t with
  | nil => rfl
  | cons ev t ih =>
    have h1 := h ev (List.mem_cons_self _ _)
    have h2 := ih (fun e he => h e (List.mem_cons_of_mem _ he))
    cases ev with
    | log lvl msg => simpa [remoteCommands, Ev.command?] using h2
    | _ => exact Bool.noConfusion h1

theorem not_mem_of_logs (t : List Ev) (ev : Ev) (h : ∀ e ∈ t, e.isLog = true)
    (hev : ev.isLog = false) : ev ∉ t := by
  intro hmem
  rw [h ev hmem] at hev
  exact Bool.noConfusion hev

theorem resolveBoard_ok_trace (defs : List ArtifactDef) (board image : String)
    (tb : List Ev) (d : ArtifactDef) (h : resolveBoard defs board image = (tb, .ok d)) :
    remoteCommands tb = [] ∧ errorLogs tb = [] ∧ tb.filter (fun ev => !ev.isLog) = [] := by
  unfold resolveBoard at h
  split at h
  · simp at h
  · simp only at h
    split at h
    · simp at h
    · simp only [Prod.mk.injEq, Except.ok.injEq] at h
      obtain ⟨h1, _⟩ := h
      subst h1
      clear * -
      induction defs with
      | nil => simp [findBoard, remoteCommands, errorLogs]
      | cons d rest ih =>
        unfold findBoard
        split
        · simp [remoteCommands, errorLogs, Ev.command?, Ev.errorLog?, Ev.isLog]
        · exact ih

theorem remoteCommands_pathExists (wd : String) (parts : List String) :
    remoteCommands (parts.map (fun p => Ev.pathExists (partLocation wd p))) = [] := by
  induction parts with
  | nil => rfl
  | cons p rest ih => simp [remoteCommands, Ev.command?]

theorem errorLogs_pathExists (wd : String) (parts : List String) :
    errorLogs (parts.map (fun p => Ev.pathExists (partLocation wd p))) = [] := by
  induction parts with
  | nil => rfl
  | cons p rest ih => simp [errorLogs, Ev.errorLog?]

theorem not_mem_pathExists (ev : Ev) (wd : String) (parts : List String)
    (h : ∀ p, ev ≠ Ev.pathExists p) :
    ev ∉ parts.map (fun p => Ev.pathExists (partLocation wd p)) := by
  intro hmem
  obtain ⟨p, _, hp⟩ := List.mem_map.1 hmem
  exact h _ hp.symm

theorem checkParts_present (env : Env) (wd : String) (parts : List String)
    (h : ∀ p ∈ parts, env.pathExists (partLocation wd p) = (true, none)) :
    checkParts env wd parts
      = (parts.map (fun p => Ev.pathExists (partLocation wd p)), none) := by
  induction parts with
  | nil => rfl
  | cons p rest ih =>
    have hp := h p (List.mem_cons_self _ _)
    have hr := ih (fun q hq => h q (List.mem_cons_of_mem _ hq))
    simp only [partLocation] at hp hr
    simp [checkParts, hp, hr, partLocation]

theorem checkParts_missing (env : Env) (wd : String) (pre : List String) (f : String)
    (post : List String)
    (hpre : ∀ p ∈ pre, env.pathExists (partLocation wd p) = (true, none))
    (hmiss : (env.pathExists (partLocation wd f)).1 = false) :
    checkParts env wd (pre ++ f :: post)
      = (pre.map (fun p => Ev.pathExists (partLocation wd p))
          ++ [Ev.pathExists (partLocation wd f),
              Ev.log .error (Sprintf "Could not locate '%s'" [.str (partLocation wd f)])],
         some "Failed to locate linux config") := by
  induction pre with
  | nil =>
    simp only [partLocation] at hmiss
    simp [checkParts, hmiss, partLocation]
  | cons p rest ih =>
    have hp := hpre p (List.mem_cons_self _ _)
    have hr := ih (fun q hq => hpre q (List.mem_cons_of_mem _ hq))
    simp only [partLocation] at hp hr
    simp [checkParts, hp, hr, partLocation]

theorem GadgetFlashFile_succeeds (te : TransferEnv) (sha256 : List Byte → List Byte)
    (loc ty : String) (g : GadgetContext) (size : Int) (content : List Byte)
    (h : te.succeeds size content) :
    (GadgetFlashFile te sha256 loc ty g).2 = none ∧
    remoteCommands (GadgetFlashFile te sha256 loc ty g).1
      = [sessionCmd ty size (sha256 content)] := by
  obtain ⟨h1, h2, h3, h4, h5, h6, h7⟩ := h
  constructor
  · simp [GadgetFlashFile, h1, h2, h3, h4, h5, h6, h7]
  · cases hf : te.fileCopy <;> cases hs : te.stdinCopy <;>
      simp [GadgetFlashFile, h1, h2, h3, h4, h5, h6, h7, hf, hs, remoteCommands, Ev.command?]

theorem flashParts_succeeds (env : Env) (g : GadgetContext) (types : List String)
    (size : Nat → Int) (content : Nat → List Byte) :
    ∀ (parts : List String) (i : Nat),
      (∀ k p, parts[k]? = some p →
        (∃ ty, types[i + k]? = some ty) ∧
        (env.transfer (i + k) (partLocation g.WorkingDirectory p)).succeeds
          (size (i + k)) (content (i + k))) →
      (flashParts env g types i parts).2 = .nil ∧
      remoteCommands (flashParts env g types i parts).1
        = (List.range parts.length).map (fun k =>
            sessionCmd (types[i + k]?.getD "") (size (i + k))
              (env.sha256 (content (i + k)))) := by
  intro parts
  induction parts with
  | nil => intro i _; simp [flashParts, remoteCommands]
  | cons p rest ih =>
    intro i h
    obtain ⟨⟨ty, hty⟩, hsucc⟩ := h 0 p (by simp)
    simp only [Nat.add_zero] at hty hsucc
    have hrest := ih (i + 1) (fun k q hq => by
      have := h (k + 1) q (by simpa using hq)
      rwa [show i + (k + 1) = i + 1 + k by omega] at this)
    obtain ⟨hf1, hf2⟩ := GadgetFlashFile_succeeds _ env.sha256
      (partLocation g.WorkingDirectory p) ty g _ _ hsucc
    simp only [partLocation] at hf1 hf2
    have hcons : flashParts env g types i (p :: rest)
        = ((GadgetFlashFile (env.transfer i (g.WorkingDirectory ++ "/.images/" ++ p))
              env.sha256 (g.WorkingDirectory ++ "/.images/" ++ p) ty g).1
            ++ (flashParts env g types (i + 1) rest).1,
           (flashParts env g types (i + 1) rest).2) := by
      simp only [flashParts, hty]
      split
      · rename_i e he
        rw [he] at hf1
        simp at hf1
      · rfl
    rw [hcons]
    refine ⟨hrest.1, ?_⟩
    simp only []
    rw [remoteCommands_append, hf2, hrest.2, List.length_cons, List.range_succ_eq_map]
    simp [hty, Function.comp_def, Nat.add_assoc, Nat.add_comm 1]

theorem postTransfer_ok (env : Env)
    (h : ∀ cmd ∈ ["toggle_active_slot", "sync", "reboot"], (env.runRemote cmd).2.2 = none) :
    (postTransfer env).2 = .nil ∧
    remoteCommands (postTransfer env).1 = ["toggle_active_slot", "sync", "reboot"] := by
  have h1 := h "toggle_active_slot" (by simp)
  have h2 := h "sync" (by simp)
  have h3 := h "reboot" (by simp)
  simp [postTransfer, h1, h2, h3, remoteCommands, Ev.command?]

theorem GadgetFlashIn_transfers_done (defs : List ArtifactDef) (env : Env) (g : GadgetContext)
    (tb tc tf : List Ev) (d : ArtifactDef)
    (hkeys : env.ensureKeys = none) (hlogin : env.login = none)
    (hboard : resolveBoard defs g.From g.Hash = (tb, .ok d))
    (hcheck : checkParts env g.WorkingDirectory d.Artifacts = (tc, none))
    (hflash : flashParts env g d.ArtifactType 0 d.Artifacts = (tf, .nil)) :
    GadgetFlashIn defs env g
      = ([Ev.ensureKeys, Ev.login] ++ tb ++ tc ++ tf ++ (postTransfer env).1,
         (postTransfer env).2) := by
  simp [GadgetFlashIn, hkeys, hlogin, hboard, hcheck, hflash]

/-! ## An unknown board -/

/-- C8 (as the code has it): for a board that is not in the catalog, once the
key check and the login to the device have succeeded, `GadgetFlash` returns a
configuration error (`Failed to flash rootfs` when board and image are both
empty, `Invalid board definition` otherwise); the key check and the login are
the only file-system or network actions of the run, both made before the board
is looked at: no existence check, no session, no remote command. -/
theorem unknown_board_aborts (defs : List ArtifactDef) (env : Env) (g : GadgetContext)
    (hkeys : env.ensureKeys = none) (hlogin : env.login = none)
    (hunknown : ∀ d ∈ defs, d.Board ≠ g.From) :
    (GadgetFlashIn defs env g).2
      = .error (if g.From = "" ∧ g.Hash = "" then "Failed to flash rootfs"
                else "Invalid board definition") ∧
    (GadgetFlashIn defs env g).1.filter (fun ev => !ev.isLog) = [Ev.ensureKeys, Ev.login] ∧
    remoteCommands (GadgetFlashIn defs env g).1 = [] := by
  by_cases hempty : g.From = "" ∧ g.Hash = ""
  · simp [GadgetFlashIn, hkeys, hlogin, resolveBoard, hempty, Ev.isLog, remoteCommands,
      Ev.command?]
  · simp [GadgetFlashIn, hkeys, hlogin, resolveBoard, hempty, Ev.isLog, remoteCommands,
      Ev.command?, findBoard_unknown g.From defs hunknown]

theorem unknown_board_aborts_witness :
    (∀ d ∈ ArtDefs, d.Board ≠ gChip.From) ∧
    (GadgetFlash envOk gChip).2 = .error "Invalid board definition" ∧
    (GadgetFlash envOk gChip).1.filter (fun ev => !ev.isLog) = [Ev.ensureKeys, Ev.login] ∧
    remoteCommands (GadgetFlash envOk gChip).1 = [] :=
  ⟨by decide, unknown_board_aborts ArtDefs envOk gChip rfl rfl (by decide)⟩

/-- C8, as stated, fails: for the board `chip`, which is not in the catalog,
the run performs the key check and the login to the device before it returns
the configuration error; and when that login fails the error returned is the
login error. -/
theorem unknown_board_after_login :
    (∀ d ∈ ArtDefs, d.Board ≠ "chip") ∧
    (GadgetFlash envOk gChip).2 = .error "Invalid board definition" ∧
    Ev.ensureKeys ∈ (GadgetFlash envOk gChip).1 ∧
    Ev.login ∈ (GadgetFlash envOk gChip).1 ∧
    (GadgetFlash envLoginFail gChip).2 = .error "ssh: handshake failed" := by
  refine ⟨by decide, by decide, by decide, by decide, by decide⟩

/-! ## A missing artifact -/

/-- C2 (as the code has it): when the key check, the login and the board
check have succeeded and an artifact file of the entry does not exist while
every file before it in catalog order does, `GadgetFlash` logs at error level
`Could not locate '<path>'` with the path of that first missing file and
returns an error; it opens no session and issues no remote command. -/
theorem missing_artifact_aborts (defs : List ArtifactDef) (env : Env) (g : GadgetContext)
    (tb : List Ev) (d : ArtifactDef) (pre : List String) (f : String) (post : List String)
    (hkeys : env.ensureKeys = none) (hlogin : env.login = none)
    (hboard : resolveBoard defs g.From g.Hash = (tb, .ok d))
    (hsplit : d.Artifacts = pre ++ f :: post)
    (hpre : ∀ p ∈ pre, env.pathExists (partLocation g.WorkingDirectory p) = (true, none))
    (hmiss : (env.pathExists (partLocation g.WorkingDirectory f)).1 = false) :
    (∃ e, (GadgetFlashIn defs env g).2 = .error e) ∧
    errorLogs (GadgetFlashIn defs env g).1
      = ["Could not locate '" ++ partLocation g.WorkingDirectory f ++ "'"] ∧
    remoteCommands (GadgetFlashIn defs env g).1 = [] ∧
    Ev.newSession ∉ (GadgetFlashIn defs env g).1 := by
  have hc := checkParts_missing env g.WorkingDirectory pre f post hpre hmiss
  rw [← hsplit] at hc
  obtain ⟨hb1, hb2, _⟩ := resolveBoard_ok_trace _ _ _ _ _ hboard
  have hlogs := resolveBoard_logs defs g.From g.Hash
  rw [hboard] at hlogs
  have hrun : GadgetFlashIn defs env g
      = ([Ev.ensureKeys, Ev.login] ++ tb
          ++ (pre.map (fun p => Ev.pathExists (partLocation g.WorkingDirectory p))
              ++ [Ev.pathExists (partLocation g.WorkingDirectory f),
                  Ev.log .error (Sprintf "Could not locate '%s'"
                    [.str (partLocation g.WorkingDirectory f)])]),
         .error "Failed to locate linux config") := by
    simp [GadgetFlashIn, hkeys, hlogin, hboard, hc]
  rw [hrun]
  refine ⟨⟨_, rfl⟩, ?_, ?_, ?_⟩
  · simp only [errorLogs_append, hb2, errorLogs_pathExists]
    simp [errorLogs, Ev.errorLog?, Sprintf_could_not_locate]
  · simp only [remoteCommands_append, hb1, remoteCommands_pathExists]
    simp [remoteCommands, Ev.command?]
  · simp only [List.mem_append, not_or]
    refine ⟨⟨by simp, not_mem_of_logs tb _ hlogs rfl⟩,
      not_mem_pathExists _ _ _ (fun p => by simp), by simp⟩

theorem missing_artifact_aborts_witness :
    (envMissing.pathExists "/w/.images/rootfs.ubifs").1 = false ∧
    (∃ e, (GadgetFlash envMissing gChippro).2 = .error e) ∧
    errorLogs (GadgetFlash envMissing gChippro).1
      = ["Could not locate '/w/.images/rootfs.ubifs'"] ∧
    remoteCommands (GadgetFlash envMissing gChippro).1 = [] ∧
    Ev.newSession ∉ (GadgetFlash envMissing gChippro).1 :=
  ⟨by decide,
   missing_artifact_aborts ArtDefs envMissing gChippro
    (resolveBoard ArtDefs "chippro" "").1
    { Board := "chippro",
      Artifacts := ["zImage", "ntc-gr8-crumb.dtb", "rootfs.ubifs"],
      ArtifactType := ["kernel", "fdt", "rootfs"] }
    ["zImage", "ntc-gr8-crumb.dtb"] "rootfs.ubifs" []
    rfl rfl rfl rfl (by decide) (by decide)⟩

/-- C2, as stated, fails: with `rootfs.ubifs` missing and the two files before
it present, the error `GadgetFlash` returns is `Failed to locate linux config`,
a text in which the name of the missing file does not occur. -/
theorem missing_artifact_error_unnamed :
    (envMissing.pathExists (partLocation "/w" "zImage")).1 = true ∧
    (envMissing.pathExists (partLocation "/w" "ntc-gr8-crumb.dtb")).1 = true ∧
    (envMissing.pathExists (partLocation "/w" "rootfs.ubifs")).1 = false ∧
    (GadgetFlash envMissing gChippro).2 = .error "Failed to locate linux config" ∧
    ¬ ("rootfs.ubifs".data <:+: "Failed to locate linux config".data) := by
  refine ⟨by decide, by decide, by decide, by decide, by decide⟩

/-! ## The run in which everything succeeds -/

/-- C3: when the key check, the login, the board check, every existence check,
every transfer up to `session.Start` and the three closing commands succeed,
`GadgetFlashIn` returns `nil` and the remote commands it issues are, in this
order, one `update_volume` per artifact of the entry (type `ArtifactType[i]`,
the size and digest of the `i`-th file), then `toggle_active_slot`, `sync`,
`reboot`.  For the shipped catalog and board `chippro` these are the commands
for `kernel`, `fdt`, `rootfs` followed by the three closing commands. -/
theorem GadgetFlash_success_commands (defs : List ArtifactDef) (env : Env) (g : GadgetContext)
    (tb : List Ev) (d : ArtifactDef) (size : Nat → Int) (content : Nat → List Byte)
    (hkeys : env.ensureKeys = none) (hlogin : env.login = none)
    (hboard : resolveBoard defs g.From g.Hash = (tb, .ok d))
    (hlen : d.Artifacts.length ≤ d.ArtifactType.length)
    (hpresent : ∀ p ∈ d.Artifacts,
      env.pathExists (partLocation g.WorkingDirectory p) = (true, none))
    (htransfer : ∀ i p, d.Artifacts[i]? = some p →
      (env.transfer i (partLocation g.WorkingDirectory p)).succeeds (size i) (content i))
    (hremote : ∀ cmd ∈ ["toggle_active_slot", "sync", "reboot"],
      (env.runRemote cmd).2.2 = none) :
    (GadgetFlashIn defs env g).2 = .nil ∧
    remoteCommands (GadgetFlashIn defs env g).1
      = (List.range d.Artifacts.length).map (fun i =>
          sessionCmd (d.ArtifactType[i]?.getD "") (size i) (env.sha256 (content i)))
        ++ ["toggle_active_slot", "sync", "reboot"] ∧
    (defs = ArtDefs → g.From = "chippro" →
      remoteCommands (GadgetFlash env g).1
        = [sessionCmd "kernel" (size 0) (env.sha256 (content 0)),
           sessionCmd "fdt" (size 1) (env.sha256 (content 1)),
           sessionCmd "rootfs" (size 2) (env.sha256 (content 2)),
           "toggle_active_slot", "sync", "reboot"]) := by
  have hc := checkParts_present env g.WorkingDirectory d.Artifacts hpresent
  have hf := flashParts_succeeds env g d.ArtifactType size content d.Artifacts 0
    (fun k p hk => by
      have hklt : k < d.Artifacts.length := by
        by_contra hcon
        rw [List.getElem?_eq_none (by omega)] at hk
        simp at hk
      have hk2 : k < d.ArtifactType.length := by omega
      refine ⟨⟨d.ArtifactType[k], ?_⟩, ?_⟩
      · simp [List.getElem?_eq_getElem hk2]
      · simpa using htransfer k p hk)
  have hp := postTransfer_ok env hremote
  have hrun := GadgetFlashIn_transfers_done defs env g tb _ _ d hkeys hlogin hboard hc
    (Prod.ext rfl hf.1)
  have hcmds : remoteCommands (GadgetFlashIn defs env g).1
      = (List.range d.Artifacts.length).map (fun i =>
          sessionCmd (d.ArtifactType[i]?.getD "") (size i) (env.sha256 (content i)))
        ++ ["toggle_active_slot", "sync", "reboot"] := by
    rw [hrun]
    simp only [remoteCommands_append, (resolveBoard_ok_trace _ _ _ _ _ hboard).1,
      remoteCommands_pathExists, hp.2, hf.2]
    simp [remoteCommands, Ev.command?]
  refine ⟨by rw [hrun]; exact hp.1, hcmds, ?_⟩
  intro hdefs hfrom
  subst hdefs
  rw [hfrom] at hboard
  have hd : d = { Board := "chippro",
                  Artifacts := ["zImage", "ntc-gr8-crumb.dtb", "rootfs.ubifs"],
                  ArtifactType := ["kernel", "fdt", "rootfs"] } := by
    simp [resolveBoard, findBoard, ArtDefs] at hboard
    exact hboard.2.symm
  rw [GadgetFlash, hcmds, hd]
  simp [List.range_succ]

theorem GadgetFlash_success_commands_witness :
    (GadgetFlash envOk gChippro).2 = .nil ∧
    remoteCommands (GadgetFlash envOk gChippro).1
      = ["update_volume kernel 5 abababababababababababababababababababababababababababababababab",
         "update_volume fdt 5 abababababababababababababababababababababababababababababababab",
         "update_volume rootfs 5 abababababababababababababababababababababababababababababababab",
         "toggle_active_slot", "sync", "reboot"] := by
  have h := GadgetFlash_success_commands ArtDefs envOk gChippro
    (resolveBoard ArtDefs "chippro" "").1
    { Board := "chippro",
      Artifacts := ["zImage", "ntc-gr8-crumb.dtb", "rootfs.ubifs"],
      ArtifactType := ["kernel", "fdt", "rootfs"] }
    (fun _ => 5) (fun _ => [1, 2, 3, 4, 5])
    rfl rfl rfl (by decide) (fun _ _ => rfl)
    (fun _ _ _ => ⟨rfl, rfl, rfl, rfl, rfl, rfl, rfl⟩) (fun _ _ => rfl)
  exact ⟨h.1, (h.2.2 rfl rfl).trans (by decide)⟩

/-! ## The commands after the transfers -/

/-- C5: once every transfer has succeeded, `GadgetFlash` goes on with
`toggle_active_slot`, `sync`, `reboot` in this order.  When a command fails
the function returns that command's error, no later command is issued, and
the standard output and the standard error of the failing command are logged
at error level; when the three succeed the function returns `nil`. -/
theorem postTransfer_gated (defs : List ArtifactDef) (env : Env) (g : GadgetContext)
    (tb tc tf : List Ev) (d : ArtifactDef)
    (hkeys : env.ensureKeys = none) (hlogin : env.login = none)
    (hboard : resolveBoard defs g.From g.Hash = (tb, .ok d))
    (hcheck : checkParts env g.WorkingDirectory d.Artifacts = (tc, none))
    (hflash : flashParts env g d.ArtifactType 0 d.Artifacts = (tf, .nil)) :
    ∃ post, (GadgetFlashIn defs env g).1 = [Ev.ensureKeys, Ev.login] ++ tb ++ tc ++ tf ++ post ∧
      (∀ o e err, env.runRemote "toggle_active_slot" = (o, e, some err) →
        (GadgetFlashIn defs env g).2 = .error err ∧
        remoteCommands post = ["toggle_active_slot"] ∧
        errorLogs post = ["\n" ++ o, "\n" ++ e]) ∧
      (∀ o e err, (env.runRemote "toggle_active_slot").2.2 = none →
        env.runRemote "sync" = (o, e, some err) →
        (GadgetFlashIn defs env g).2 = .error err ∧
        remoteCommands post = ["toggle_active_slot", "sync"] ∧
        errorLogs post = ["\n" ++ o, "\n" ++ e]) ∧
      (∀ o e err, (env.runRemote "toggle_active_slot").2.2 = none →
        (env.runRemote "sync").2.2 = none →
        env.runRemote "reboot" = (o, e, some err) →
        (GadgetFlashIn defs env g).2 = .error err ∧
        remoteCommands post = ["toggle_active_slot", "sync", "reboot"] ∧
        errorLogs post = ["\n" ++ o, "\n" ++ e]) ∧
      ((env.runRemote "toggle_active_slot").2.2 = none →
        (env.runRemote "sync").2.2 = none →
        (env.runRemote "reboot").2.2 = none →
        (GadgetFlashIn defs env g).2 = .nil ∧
        remoteCommands post = ["toggle_active_slot", "sync", "reboot"] ∧
        errorLogs post = []) := by
  have hrun := GadgetFlashIn_transfers_done defs env g tb tc tf d hkeys hlogin hboard
    hcheck hflash
  refine ⟨(postTransfer env).1, by rw [hrun], ?_, ?_, ?_, ?_⟩
  · intro o e err h1
    rw [hrun]
    simp [postTransfer, h1, remoteCommands, errorLogs, Ev.command?, Ev.errorLog?,
      Sprintf_newline]
  · intro o e err h1 h2
    rw [hrun]
    simp [postTransfer, h1, h2, remoteCommands, errorLogs, Ev.command?, Ev.errorLog?,
      Sprintf_newline]
  · intro o e err h1 h2 h3
    rw [hrun]
    simp [postTransfer, h1, h2, h3, remoteCommands, errorLogs, Ev.command?, Ev.errorLog?,
      Sprintf_newline]
  · intro h1 h2 h3
    rw [hrun]
    simp [postTransfer, h1, h2, h3, remoteCommands, errorLogs, Ev.command?, Ev.errorLog?]

theorem postTransfer_gated_witness :
    (GadgetFlash envSyncFail gChippro).2 = .error "Process exited with status 1" ∧
    remoteCommands (GadgetFlash envSyncFail gChippro).1
      = [sessionCmd "kernel" 5 (shaStub [1, 2, 3, 4, 5]), sessionCmd "fdt" 5 (shaStub [1, 2, 3, 4, 5]),
         sessionCmd "rootfs" 5 (shaStub [1, 2, 3, 4, 5]), "toggle_active_slot", "sync"] ∧
    errorLogs (GadgetFlash envSyncFail gChippro).1 = ["\nflushing", "\ndevice busy"] := by
  obtain ⟨post, hpost, -, h2, -, -⟩ :=
    postTransfer_gated ArtDefs envSyncFail gChippro
      (resolveBoard ArtDefs "chippro" "").1
      (checkParts envSyncFail "/w" ["zImage", "ntc-gr8-crumb.dtb", "rootfs.ubifs"]).1
      (flashParts envSyncFail gChippro ["kernel", "fdt", "rootfs"] 0
        ["zImage", "ntc-gr8-crumb.dtb", "rootfs.ubifs"]).1
      { Board := "chippro",
        Artifacts := ["zImage", "ntc-gr8-crumb.dtb", "rootfs.ubifs"],
        ArtifactType := ["kernel", "fdt", "rootfs"] }
      rfl rfl rfl rfl rfl
  obtain ⟨hr, hc, he⟩ := h2 "flushing" "device busy" "Process exited with status 1"
    (by decide) (by decide)
  refine ⟨hr, ?_, ?_⟩
  · rw [GadgetFlash, hpost, remoteCommands_append, hc]
    decide
  · rw [GadgetFlash, hpost, errorLogs_append, he]
    decide

/-! ## Failures inside a transfer -/

/-- `GadgetFlashFile` never looks at the result of `session.Wait()`. -/
theorem GadgetFlashFile_wait_unused (te : TransferEnv) (w : Option GoError)
    (sha256 : List Byte → List Byte) (loc ty : String) (g : GadgetContext) :
    GadgetFlashFile { te with wait := w } sha256 loc ty g = GadgetFlashFile te sha256 loc ty g := by
  simp [GadgetFlashFile]

/-- The result of `GadgetFlashFile` does not depend on how the two copy tasks end. -/
theorem GadgetFlashFile_copy_unused (te : TransferEnv) (a b : Option GoError)
    (sha256 : List Byte → List Byte) (loc ty : String) (g : GadgetContext) :
    (GadgetFlashFile { te with fileCopy := a, stdinCopy := b } sha256 loc ty g).2
      = (GadgetFlashFile te sha256 loc ty g).2 := by
  rcases te with ⟨o1, ns, st, hr, sp, o2, fc, sc, stt, w⟩
  rcases o1 with _ | e
  · rcases ns with _ | e
    · rcases st with e | sz
      · rfl
      · rcases hr with e | c
        · rfl
        · rcases sp with _ | e
          · rcases o2 with _ | e
            · rcases stt with _ | e <;> rfl
            · rfl
          · rfl
    · rfl
  · rfl

/-- `GadgetFlashFile` returns an error exactly when one of the calls it
checks fails. -/
theorem GadgetFlashFile_error_iff (te : TransferEnv) (sha256 : List Byte → List Byte)
    (loc ty : String) (g : GadgetContext) :
    (GadgetFlashFile te sha256 loc ty g).2.isSome = te.checkedFailure := by
  rcases te with ⟨o1, ns, st, hr, sp, o2, fc, sc, stt, w⟩
  rcases o1 with _ | e
  · rcases ns with _ | e
    · rcases st with e | sz
      · rfl
      · rcases hr with e | c
        · rfl
        · rcases sp with _ | e
          · rcases o2 with _ | e
            · rcases stt with _ | e <;> rfl
            · rfl
          · rfl
    · rfl
  · rfl

/-- One call of `GadgetFlashFile` issues one remote command at most. -/
theorem GadgetFlashFile_commands_le (te : TransferEnv) (sha256 : List Byte → List Byte)
    (loc ty : String) (g : GadgetContext) :
    (remoteCommands (GadgetFlashFile te sha256 loc ty g).1).length ≤ 1 := by
  rcases te with ⟨o1, ns, st, hr, sp, o2, fc, sc, stt, w⟩
  rcases o1 with _ | e
  · rcases ns with _ | e
    · rcases st with e | sz
      · simp [GadgetFlashFile, remoteCommands, Ev.command?]
      · rcases hr with e | c
        · simp [GadgetFlashFile, remoteCommands, Ev.command?]
        · rcases sp with _ | e
          · rcases o2 with _ | e
            · rcases stt with _ | e <;> rcases fc with _ | e <;> rcases sc with _ | e <;>
                simp [GadgetFlashFile, remoteCommands, Ev.command?]
            · simp [GadgetFlashFile, remoteCommands, Ev.command?]
          · simp [GadgetFlashFile, remoteCommands, Ev.command?]
    · simp [GadgetFlashFile, remoteCommands, Ev.command?]
  · simp [GadgetFlashFile, remoteCommands, Ev.command?]

/-- Whenever `GadgetFlashFile` returns an error the session, if it was opened,
is not closed. -/
theorem GadgetFlashFile_error_no_close (te : TransferEnv) (sha256 : List Byte → List Byte)
    (loc ty : String) (g : GadgetContext)
    (h : (GadgetFlashFile te sha256 loc ty g).2 ≠ none) :
    Ev.sessionClose ∉ (GadgetFlashFile te sha256 loc ty g).1 := by
  rcases te with ⟨o1, ns, st, hr, sp, o2, fc, sc, stt, w⟩
  revert h
  rcases o1 with _ | e
  · rcases ns with _ | e
    · rcases st with e | sz
      · simp [GadgetFlashFile]
      · rcases hr with e | c
        · simp [GadgetFlashFile]
        · rcases sp with _ | e
          · rcases o2 with _ | e
            · rcases stt with _ | e <;> rcases fc with _ | e <;> rcases sc with _ | e <;>
                simp [GadgetFlashFile]
            · simp [GadgetFlashFile]
          · simp [GadgetFlashFile]
    · simp [GadgetFlashFile]
  · simp [GadgetFlashFile]

theorem flashParts_failure (env : Env) (g : GadgetContext) (types : List String)
    (size : Nat → Int) (content : Nat → List Byte) (f : String) (post : List String) :
    ∀ (pre : List String) (i : Nat),
      (∀ k p, pre[k]? = some p →
        (∃ ty, types[i + k]? = some ty) ∧
        (env.transfer (i + k) (partLocation g.WorkingDirectory p)).succeeds
          (size (i + k)) (content (i + k))) →
      ∀ ty, types[i + pre.length]? = some ty →
      (env.transfer (i + pre.length) (partLocation g.WorkingDirectory f)).checkedFailure = true →
      (∃ e, (flashParts env g types i (pre ++ f :: post)).2 = .error e) ∧
      remoteCommands (flashParts env g types i (pre ++ f :: post)).1
        = (List.range pre.length).map (fun k =>
            sessionCmd (types[i + k]?.getD "") (size (i + k))
              (env.sha256 (content (i + k))))
          ++ remoteCommands (GadgetFlashFile
              (env.transfer (i + pre.length) (partLocation g.WorkingDirectory f))
              env.sha256 (partLocation g.WorkingDirectory f) ty g).1 := by
  intro pre
  induction pre with
  | nil =>
    intro i _ ty hty hfail
    simp only [List.length_nil, Nat.add_zero] at hty hfail
    rw [← GadgetFlashFile_error_iff _ env.sha256 (partLocation g.WorkingDirectory f) ty g,
      Option.isSome_iff_exists] at hfail
    obtain ⟨e, he⟩ := hfail
    simp only [partLocation] at he
    simp [flashParts, hty, he, partLocation]
  | cons p rest ih =>
    intro i h ty hty hfail
    obtain ⟨⟨ty0, hty0⟩, hsucc⟩ := h 0 p (by simp)
    simp only [Nat.add_zero] at hty0 hsucc
    have hrest := ih (i + 1) (fun k q hq => by
      have := h (k + 1) q (by simpa using hq)
      rwa [show i + (k + 1) = i + 1 + k by omega] at this) ty
      (by rw [← hty, List.length_cons]; congr 1; omega)
      (by rw [← hfail, List.length_cons]; congr 2; omega)
    obtain ⟨hf1, hf2⟩ := GadgetFlashFile_succeeds _ env.sha256
      (partLocation g.WorkingDirectory p) ty0 g _ _ hsucc
    simp only [partLocation] at hf1 hf2
    have hcons : flashParts env g types i (p :: (rest ++ f :: post))
        = ((GadgetFlashFile (env.transfer i (g.WorkingDirectory ++ "/.images/" ++ p))
              env.sha256 (g.WorkingDirectory ++ "/.images/" ++ p) ty0 g).1
            ++ (flashParts env g types (i + 1) (rest ++ f :: post)).1,
           (flashParts env g types (i + 1) (rest ++ f :: post)).2) := by
      simp only [flashParts, hty0]
      split
      · rename_i e he
        rw [he] at hf1
        simp at hf1
      · rfl
    rw [List.cons_append, hcons]
    refine ⟨hrest.1, ?_⟩
    simp only []
    have e1 : i + 1 + rest.length = i + (rest.length + 1) := by omega
    rw [remoteCommands_append, hf2, hrest.2, List.length_cons, List.range_succ_eq_map, e1]
    simp [hty0, Function.comp_def, Nat.add_assoc, Nat.add_comm 1]

/-- The part of C6 that holds on the code: when the transfer of an artifact
fails at a call that `GadgetFlashFile` checks (an open, the session open,
`Stat`, the read of the hashing pass, `StdinPipe`, `session.Start`) and the
transfers before it succeeded, `GadgetFlash` returns an error and the remote
commands of the run end with that artifact: no `update_volume` for a later
artifact and none of `toggle_active_slot`, `sync`, `reboot`. -/
theorem checked_failure_aborts (defs : List ArtifactDef) (env : Env) (g : GadgetContext)
    (tb : List Ev) (d : ArtifactDef) (size : Nat → Int) (content : Nat → List Byte)
    (pre : List String) (f : String) (post : List String) (ty : String)
    (hkeys : env.ensureKeys = none) (hlogin : env.login = none)
    (hboard : resolveBoard defs g.From g.Hash = (tb, .ok d))
    (hsplit : d.Artifacts = pre ++ f :: post)
    (hty : d.ArtifactType[pre.length]? = some ty)
    (hpresent : ∀ p ∈ d.Artifacts,
      env.pathExists (partLocation g.WorkingDirectory p) = (true, none))
    (hearlier : ∀ k p, pre[k]? = some p →
      (env.transfer k (partLocation g.WorkingDirectory p)).succeeds (size k) (content k))
    (hfail : (env.transfer pre.length (partLocation g.WorkingDirectory f)).checkedFailure
      = true) :
    (∃ e, (GadgetFlashIn defs env g).2 = .error e) ∧
    ∃ last, last.length ≤ 1 ∧
      remoteCommands (GadgetFlashIn defs env g).1
        = (List.range pre.length).map (fun k =>
            sessionCmd (d.ArtifactType[k]?.getD "") (size k) (env.sha256 (content k)))
          ++ last := by
  have hc := checkParts_present env g.WorkingDirectory d.Artifacts hpresent
  have hf := flashParts_failure env g d.ArtifactType size content f post pre 0
    (fun k p hk => by
      have hklt : k < pre.length := by
        by_contra hcon
        rw [List.getElem?_eq_none (by omega)] at hk
        simp at hk
      have hlt : k < d.ArtifactType.length := by
        have := List.getElem?_eq_some_iff.1 hty
        obtain ⟨hl, _⟩ := this
        omega
      refine ⟨⟨d.ArtifactType[k], ?_⟩, ?_⟩
      · simp [List.getElem?_eq_getElem hlt]
      · simpa using hearlier k p hk)
    ty (by simpa using hty) (by simpa using hfail)
  rw [← hsplit] at hf
  obtain ⟨⟨e, he⟩, hcmd⟩ := hf
  have hrun : GadgetFlashIn defs env g
      = ([Ev.ensureKeys, Ev.login] ++ tb
          ++ d.Artifacts.map (fun p => Ev.pathExists (partLocation g.WorkingDirectory p))
          ++ (flashParts env g d.ArtifactType 0 d.Artifacts).1, .error e) := by
    have hfp : flashParts env g d.ArtifactType 0 d.Artifacts
        = ((flashParts env g d.ArtifactType 0 d.Artifacts).1, .error e) := Prod.ext rfl he
    simp only [GadgetFlashIn, hkeys, hlogin, hboard, hc]
    rw [hfp]
    simp
  refine ⟨⟨e, by rw [hrun]⟩,
    remoteCommands (GadgetFlashFile
      (env.transfer (0 + pre.length) (partLocation g.WorkingDirectory f))
      env.sha256 (partLocation g.WorkingDirectory f) ty g).1,
    GadgetFlashFile_commands_le _ env.sha256 _ ty g, ?_⟩
  rw [hrun]
  simp only [remoteCommands_append, (resolveBoard_ok_trace _ _ _ _ _ hboard).1,
    remoteCommands_pathExists, hcmd]
  simp [remoteCommands, Ev.command?]

/-- C1, on the code: the remote `update_volume` of the second artifact exits
with status 1, yet `GadgetFlashFile` reports no failure for it, `GadgetFlash`
returns `nil`, and the third `update_volume`, `toggle_active_slot`, `sync`
and `reboot` are all issued. -/
theorem remote_exit_ignored :
    (envExit.transfer 1 "/w/.images/ntc-gr8-crumb.dtb").wait
      = some "Process exited with status 1" ∧
    (GadgetFlashFile (envExit.transfer 1 "/w/.images/ntc-gr8-crumb.dtb") envExit.sha256
      "/w/.images/ntc-gr8-crumb.dtb" "fdt" gChippro).2 = none ∧
    (GadgetFlash envExit gChippro).2 = .nil ∧
    remoteCommands (GadgetFlash envExit gChippro).1
      = [sessionCmd "kernel" 5 (shaStub [1, 2, 3, 4, 5]), sessionCmd "fdt" 5 (shaStub [1, 2, 3, 4, 5]),
         sessionCmd "rootfs" 5 (shaStub [1, 2, 3, 4, 5]), "toggle_active_slot", "sync", "reboot"] := by
  refine ⟨by decide, by decide, by decide, by decide⟩

/-- C6, on the code: reading the first artifact fails in the streaming pass;
the failure is logged, but `GadgetFlash` returns `nil` and issues the
`update_volume` of the later artifacts and the three closing commands, both
when the remote command of that artifact exits with status 0 and when it
exits with status 1. -/
theorem stream_read_failure_ignored :
    ((envStreamFail none).transfer 0 "/w/.images/zImage").fileCopy
      = some "read /w/.images/zImage: input/output error" ∧
    (GadgetFlash (envStreamFail none) gChippro).2 = .nil ∧
    remoteCommands (GadgetFlash (envStreamFail none) gChippro).1
      = [sessionCmd "kernel" 5 (shaStub [1, 2, 3, 4, 5]), sessionCmd "fdt" 5 (shaStub [1, 2, 3, 4, 5]),
         sessionCmd "rootfs" 5 (shaStub [1, 2, 3, 4, 5]), "toggle_active_slot", "sync", "reboot"] ∧
    errorLogs (GadgetFlash (envStreamFail none) gChippro).1
      = ["Failed to copy file to writer"] ∧
    (GadgetFlash (envStreamFail (some "Process exited with status 1")) gChippro).2 = .nil ∧
    remoteCommands (GadgetFlash (envStreamFail (some "Process exited with status 1"))
        gChippro).1
      = [sessionCmd "kernel" 5 (shaStub [1, 2, 3, 4, 5]), sessionCmd "fdt" 5 (shaStub [1, 2, 3, 4, 5]),
         sessionCmd "rootfs" 5 (shaStub [1, 2, 3, 4, 5]), "toggle_active_slot", "sync", "reboot"] := by
  refine ⟨by decide, by decide, by decide, by decide, by decide, by decide⟩

/-- C9, on the code: `session.Start` fails after the session was opened;
`GadgetFlashFile` returns the error and the session is never closed.  The
same holds when `Stat` fails. -/
theorem session_left_open :
    (GadgetFlashFile teStartFail shaStub "/w/.images/zImage" "kernel" gChippro).2
      = some "ssh: command update_volume failed" ∧
    Ev.newSession ∈ (GadgetFlashFile teStartFail shaStub "/w/.images/zImage" "kernel"
      gChippro).1 ∧
    Ev.sessionClose ∉ (GadgetFlashFile teStartFail shaStub "/w/.images/zImage" "kernel"
      gChippro).1 ∧
    Ev.sessionClose ∈ (GadgetFlashFile teOk shaStub "/w/.images/zImage" "kernel" gChippro).1 ∧
    Ev.newSession ∈ (GadgetFlashFile { teOk with stat := .error "stat: bad file descriptor" }
      shaStub "/w/.images/zImage" "kernel" gChippro).1 ∧
    Ev.sessionClose ∉ (GadgetFlashFile { teOk with stat := .error "stat: bad file descriptor" }
      shaStub "/w/.images/zImage" "kernel" gChippro).1 := by
  refine ⟨by decide, by decide, by decide, by decide, by decide, by decide⟩

/-! ## Schedules of the copy tasks -/

theorem written_append (v w : List Wire) : written (v ++ w) = written v ++ written w := by
  induction v with
  | nil => rfl
  | cons e v ih => cases e <;> simp [written, ih]

theorem Transfer.Inv_init (content : List Byte) (startFails : Bool) :
    (Transfer.init content startFails).Inv content := by
  simp [Transfer.Inv, Transfer.init, written]

theorem Transfer.Inv_step (content : List Byte) (s : Transfer) (m : Move)
    (h : s.Inv content) : (s.step m).Inv content := by
  rcases s with ⟨pc, sf, ft, st, cl, file, pipe, buf, wire⟩
  simp only [Transfer.Inv] at h ⊢
  obtain ⟨h1, h2, h3, h4⟩ := h
  cases m with
  | main =>
    cases pc <;> cases sf <;> simp_all [Transfer.step, written_append, written]
  | fileRead n =>
    by_cases hc : ft = true ∧ pipe = [] ∧ 0 < n
    · obtain ⟨_, hp, _⟩ := hc
      subst hp
      simp only [Transfer.step]
      split
      · refine ⟨?_, h2, h3, h4⟩
        simpa [List.append_assoc] using h1
      · exact ⟨h1, h2, h3, h4⟩
    · simp only [Transfer.step, if_neg hc]
      exact ⟨h1, h2, h3, h4⟩
  | pipeRead n =>
    by_cases hc : st = true ∧ buf = [] ∧ 0 < n
    · obtain ⟨_, hp, _⟩ := hc
      subst hp
      simp only [Transfer.step]
      split
      · refine ⟨?_, h2, h3, h4⟩
        simpa [List.append_assoc] using h1
      · exact ⟨h1, h2, h3, h4⟩
    · simp only [Transfer.step, if_neg hc]
      exact ⟨h1, h2, h3, h4⟩
  | stdinWrite =>
    simp only [Transfer.step]
    split
    · refine ⟨?_, h2, h3, ?_⟩
      · simpa [written_append, written, List.append_assoc] using h1
      · simpa using h4
    · exact ⟨h1, h2, h3, h4⟩

theorem Transfer.Inv_run (content : List Byte) (sched : List Move) :
    ∀ s : Transfer, s.Inv content → (s.run sched).Inv content := by
  induction sched with
  | nil => intro s h; exact h
  | cons m ms ih => intro s h; exact ih _ (Transfer.Inv_step content s m h)

/-- C10 (as the code has it): under every schedule of the main thread and the
two copy tasks, the payload bytes that have reached the session's stdin are
an initial part of the artifact file, in file order, and the command is
started only after both tasks have been launched.  Nothing orders the writes
of the tasks after `session.Start`. -/
theorem payload_in_file_order (content : List Byte) (startFails : Bool) (sched : List Move) :
    (∃ rest, written ((Transfer.init content startFails).run sched).wire ++ rest = content) ∧
    (Wire.started ∈ ((Transfer.init content startFails).run sched).wire →
      ((Transfer.init content startFails).run sched).fileTask = true ∧
      ((Transfer.init content startFails).run sched).stdinTask = true) := by
  obtain ⟨h1, h2, h3, h4⟩ :=
    Transfer.Inv_run content sched _ (Transfer.Inv_init content startFails)
  refine ⟨⟨_, by rw [← List.append_assoc, ← List.append_assoc]; exact h1⟩, ?_⟩
  intro hs
  obtain ⟨ha, hb, _⟩ := h4 hs
  exact ⟨h2 ha, h3 ha hb⟩

/-- C10, as stated, fails: in the schedule where both tasks are launched, the
first reads the file, the second takes the bytes from the pipe and writes
them, and only then the main thread calls `session.Start`, the payload
reaches the session's stdin before the command is started. -/
theorem payload_before_start :
    ((Transfer.init [7, 8, 9] false).run
      [.main, .main, .fileRead 3, .pipeRead 3, .stdinWrite, .main]).wire
      = [.payload [7, 8, 9], .started] ∧
    startPrecedesPayload ((Transfer.init [7, 8, 9] false).run
      [.main, .main, .fileRead 3, .pipeRead 3, .stdinWrite, .main]).wire = false := by
  refine ⟨by decide, by decide⟩

end Gadget
